import Mathlib

/-!
Verification of the resource-URI addressing layer, the entity mapper, and
the config diff/merge utilities of the giantswarm/mcp-giantswarm-apps
repository, shallowly embedded in Lean 4.

Go strings are modelled as `List Char` (`Str`); Go byte slices as
`List UInt8`; Go maps (`map[string]string`) as association lists with a
separate unique-keys predicate where a proof needs it; fallible Go
functions return `Except`.
-/

set_option autoImplicit false

/-- Go strings, modelled as lists of characters. -/
abbrev Str := List Char

/-- Coercion from Lean string literals to the `Str` model. -/
def str (s : String) : Str := s.data

namespace Resources

/-! ## Resource-URI addressing (internal/resources/uri parsing)

Embeds `ResourceType`, `ResourceURI`, `ParseResourceURI` and
`ResourceURI.String` from the `resources` package. -/

/-- `ResourceType` from the source: the scheme of a resource URI. -/
inductive ResourceType where
  | app
  | catalog
  | config
  | schema
  | changelog
  deriving DecidableEq, Repr

/-- `ResourceURI` from the source. The Go field `Type` is named `Ty` here
(`Type` is reserved in Lean); all other field names match the source. -/
structure ResourceURI where
  Ty : ResourceType
  Namespace : Str := []
  Name : Str := []
  Catalog : Str := []
  Version : Str := []
  SubPath : Str := []
  deriving DecidableEq, Repr

/-- Go `strings.SplitN(uri, "://", 2)`: split at the first occurrence of
`"://"`. `none` models the length-1 result (no occurrence). -/
def findScheme : Str → Option (Str × Str)
  | [] => none
  | c :: rest =>
    if c = ':' ∧ rest.take 2 = str "//" then some ([], rest.drop 2)
    else
      match findScheme rest with
      | none => none
      | some (a, b) => some (c :: a, b)

/-- Split on a separator character: first segment plus remaining segments.
Helper for `splitChar`. -/
def splitCharP (c : Char) : Str → Str × List Str
  | [] => ([], [])
  | x :: xs =>
    let p := splitCharP c xs
    if x = c then ([], p.1 :: p.2) else (x :: p.1, p.2)

/-- Go `strings.Split(s, sep)` for a single-character separator: split on
every occurrence, keeping empty segments (`[""]` for the empty string). -/
def splitChar (c : Char) (l : Str) : List Str :=
  (splitCharP c l).1 :: (splitCharP c l).2

/-- Go `strings.Join(xs, "/")`. -/
def joinSlash : List Str → Str
  | [] => []
  | [x] => x
  | x :: y :: t => x ++ '/' :: joinSlash (y :: t)

/-- `ParseResourceURI` from the source: split scheme and path, dispatch on
the scheme, check the segment count, fill the positional fields. -/
def ParseResourceURI (uri : Str) : Except Str ResourceURI :=
  match findScheme uri with
  | none => .error (str "invalid resource URI format: " ++ uri)
  | some (scheme, path) =>
    let pathParts := splitChar '/' path
    if scheme = str "app" then
      if pathParts.length ≠ 2 then
        .error (str "invalid app resource path: expected namespace/name")
      else
        .ok { Ty := .app, Namespace := pathParts[0]!, Name := pathParts[1]! }
    else if scheme = str "catalog" then
      if pathParts.length ≠ 1 then
        .error (str "invalid catalog resource path: expected name")
      else
        .ok { Ty := .catalog, Name := pathParts[0]! }
    else if scheme = str "config" then
      if pathParts.length < 2 then
        .error (str "invalid config resource path: expected namespace/app/...")
      else
        .ok { Ty := .config, Namespace := pathParts[0]!, Name := pathParts[1]!,
              SubPath := if pathParts.length > 2 then joinSlash (pathParts.drop 2) else [] }
    else if scheme = str "schema" then
      if pathParts.length ≠ 3 then
        .error (str "invalid schema resource path: expected catalog/app/version")
      else
        .ok { Ty := .schema, Catalog := pathParts[0]!, Name := pathParts[1]!,
              Version := pathParts[2]! }
    else if scheme = str "changelog" then
      if pathParts.length ≠ 2 then
        .error (str "invalid changelog resource path: expected catalog/app")
      else
        .ok { Ty := .changelog, Catalog := pathParts[0]!, Name := pathParts[1]! }
    else
      .error (str "unknown resource type: " ++ scheme)

/-- `ResourceURI.String` from the source: the canonical URI rendering.
A `config` URI with an empty `SubPath` prints the default `values` tail. -/
def ResourceURI.String (r : ResourceURI) : Str :=
  match r.Ty with
  | .app => str "app://" ++ r.Namespace ++ str "/" ++ r.Name
  | .catalog => str "catalog://" ++ r.Name
  | .config =>
    if r.SubPath ≠ [] then
      str "config://" ++ r.Namespace ++ str "/" ++ r.Name ++ str "/" ++ r.SubPath
    else
      str "config://" ++ r.Namespace ++ str "/" ++ r.Name ++ str "/values"
  | .schema => str "schema://" ++ r.Catalog ++ str "/" ++ r.Name ++ str "/" ++ r.Version
  | .changelog => str "changelog://" ++ r.Catalog ++ str "/" ++ r.Name

/-- The canonical form of a parsed URI: a `config` URI with an empty
`SubPath` is rendered (and hence re-parsed) with the default `values`
sub-path; every other URI is unchanged. -/
def canonicalURI (u : ResourceURI) : ResourceURI :=
  if u.Ty = .config ∧ u.SubPath = [] then { u with SubPath := str "values" } else u

/-- The field shape every successfully parsed URI has: fields filled by the
parser carry no `/` (they are segments of a `/`-split), and fields the
scheme does not use are empty. -/
def GoodURI (u : ResourceURI) : Prop :=
  match u.Ty with
  | .app => (∀ x ∈ u.Namespace, x ≠ '/') ∧ (∀ x ∈ u.Name, x ≠ '/') ∧
      u.Catalog = [] ∧ u.Version = [] ∧ u.SubPath = []
  | .catalog => (∀ x ∈ u.Name, x ≠ '/') ∧
      u.Namespace = [] ∧ u.Catalog = [] ∧ u.Version = [] ∧ u.SubPath = []
  | .config => (∀ x ∈ u.Namespace, x ≠ '/') ∧ (∀ x ∈ u.Name, x ≠ '/') ∧
      u.Catalog = [] ∧ u.Version = []
  | .schema => (∀ x ∈ u.Catalog, x ≠ '/') ∧ (∀ x ∈ u.Name, x ≠ '/') ∧
      (∀ x ∈ u.Version, x ≠ '/') ∧ u.Namespace = [] ∧ u.SubPath = []
  | .changelog => (∀ x ∈ u.Catalog, x ≠ '/') ∧ (∀ x ∈ u.Name, x ≠ '/') ∧
      u.Namespace = [] ∧ u.Version = [] ∧ u.SubPath = []

end Resources

/-! ## Go primitives shared by several packages -/

/-- Untyped Kubernetes object values: the `interface{}` trees produced by
the dynamic client (`map[string]interface{}` nodes, strings, booleans,
numbers, lists, null). -/
inductive UVal where
  | s (v : Str)
  | b (v : Bool)
  | i (v : Int)
  | m (fields : List (Str × UVal))
  | arr (elems : List UVal)
  | null

/-- Lookup in a `map[string]interface{}` node. -/
def lookupU : List (Str × UVal) → Str → Option UVal
  | [], _ => none
  | (k, v) :: rest, key => if k = key then some v else lookupU rest key

/-- Whether a byte is a UTF-8 continuation byte (`10xxxxxx`). -/
def IsCont (b : UInt8) : Prop := 0x80 ≤ b.toNat ∧ b.toNat < 0xC0

instance (b : UInt8) : Decidable (IsCont b) := by unfold IsCont; infer_instance

/-- The value bits of a UTF-8 continuation byte. -/
def contVal (b : UInt8) : Nat := b.toNat - 0x80

/-- UTF-8 encoding of one character: Go's `[]byte(string)` conversion,
one scalar value at a time. -/
def utf8EncodeChar (c : Char) : List UInt8 :=
  let v := c.toNat
  if v < 0x80 then [UInt8.ofNat v]
  else if v < 0x800 then
    [UInt8.ofNat (0xC0 + v / 0x40), UInt8.ofNat (0x80 + v % 0x40)]
  else if v < 0x10000 then
    [UInt8.ofNat (0xE0 + v / 0x1000), UInt8.ofNat (0x80 + v / 0x40 % 0x40),
      UInt8.ofNat (0x80 + v % 0x40)]
  else
    [UInt8.ofNat (0xF0 + v / 0x40000), UInt8.ofNat (0x80 + v / 0x1000 % 0x40),
      UInt8.ofNat (0x80 + v / 0x40 % 0x40), UInt8.ofNat (0x80 + v % 0x40)]

/-- UTF-8 encoding of a string: Go's `[]byte(s)`. -/
def utf8Encode (s : Str) : List UInt8 := (s.map utf8EncodeChar).flatten

/-- Decode one UTF-8 scalar value from the front of a byte list, returning
the character and the number of bytes consumed; `none` on an invalid,
overlong or surrogate sequence. -/
def utf8DecodeChar : List UInt8 → Option (Char × Nat)
  | [] => none
  | b0 :: rest =>
    let n0 := b0.toNat
    if n0 < 0x80 then some (Char.ofNat n0, 1)
    else if n0 < 0xC0 then none
    else if n0 < 0xE0 then
      match rest with
      | b1 :: _ =>
        if IsCont b1 then
          let v := (n0 - 0xC0) * 0x40 + contVal b1
          if 0x80 ≤ v then some (Char.ofNat v, 2) else none
        else none
      | [] => none
    else if n0 < 0xF0 then
      match rest with
      | b1 :: b2 :: _ =>
        if IsCont b1 ∧ IsCont b2 then
          let v := (n0 - 0xE0) * 0x1000 + contVal b1 * 0x40 + contVal b2
          if 0x800 ≤ v ∧ ¬(0xD800 ≤ v ∧ v < 0xE000) then some (Char.ofNat v, 3)
          else none
        else none
      | _ => none
    else if n0 < 0xF8 then
      match rest with
      | b1 :: b2 :: b3 :: _ =>
        if IsCont b1 ∧ IsCont b2 ∧ IsCont b3 then
          let v := (n0 - 0xF0) * 0x40000 + contVal b1 * 0x1000 +
            contVal b2 * 0x40 + contVal b3
          if 0x10000 ≤ v ∧ v < 0x110000 then some (Char.ofNat v, 4) else none
        else none
      | _ => none
    else none

/-- Fuel-indexed UTF-8 decoding loop; each step consumes at least one byte,
so byte-list length is sufficient fuel. Invalid bytes decode to U+FFFD,
as in Go's `string([]byte)` conversion. -/
def utf8DecodeAux : Nat → List UInt8 → Str
  | 0, _ => []
  | _ + 1, [] => []
  | fuel + 1, b :: rest =>
    match utf8DecodeChar (b :: rest) with
    | some (c, n) => c :: utf8DecodeAux fuel (List.drop (n - 1) rest)
    | none => Char.ofNat 0xFFFD :: utf8DecodeAux fuel rest

/-- UTF-8 decoding of a byte list: Go's `string(b)` conversion. -/
def utf8Decode (l : List UInt8) : Str := utf8DecodeAux l.length l

namespace ConfigPkg

/-! ## Config package (pkg/config): types, diff/merge, Secret conversion,
delete tolerance -/

/-- `ConfigType` from the source. -/
inductive ConfigType where
  | configmap
  | secret
  deriving DecidableEq, Repr

/-- Go map indexing `m[k]` on the association-list model of
`map[string]string`. -/
def lookupS : List (Str × Str) → Str → Option Str
  | [], _ => none
  | (k, v) :: rest, key => if k = key then some v else lookupS rest key

/-- Go map assignment `m[k] = v` on the association-list model: replace the
binding when the key is present, append it otherwise. -/
def upsert : List (Str × Str) → Str → Str → List (Str × Str)
  | [], key, val => [(key, val)]
  | (k, v) :: rest, key, val =>
    if k = key then (k, val) :: rest else (k, v) :: upsert rest key val

/-- Go maps have unique keys; association lists standing for a map carry
this invariant where a proof needs it. -/
def KeysUnique (l : List (Str × Str)) : Prop := (l.map Prod.fst).Nodup

/-- `Config` from the source (a ConfigMap or Secret). The Go field `Type`
is named `Ty` (`Type` is reserved in Lean). -/
structure Config where
  Name : Str
  Namespace : Str
  Ty : ConfigType
  Data : List (Str × Str)
  Labels : List (Str × Str)
  deriving DecidableEq, Repr

/-- `DiffEntry` from the source. -/
structure DiffEntry where
  Old : Str
  New : Str
  deriving DecidableEq, Repr

/-- `ConfigDiff` from the source. -/
structure ConfigDiff where
  Added : List (Str × Str)
  Modified : List (Str × DiffEntry)
  Removed : List (Str × Str)
  deriving DecidableEq, Repr

/-- `Config.MergeWith` from the source: copy every binding of `other.Data`
into the receiver's data, the other configuration winning on conflicts. -/
def Config.MergeWith (c other : Config) : Config :=
  { c with Data := other.Data.foldl (fun acc kv => upsert acc kv.1 kv.2) c.Data }

/-- `Config.Diff` from the source: one pass over `other.Data` classifying
added and modified keys, one pass over the receiver's data collecting
removed keys. Go's unordered map iteration is modelled in list order. -/
def Config.Diff (c other : Config) : ConfigDiff :=
  { Added := other.Data.filter (fun kv => (lookupS c.Data kv.1).isNone)
    Modified := other.Data.filterMap (fun kv =>
      match lookupS c.Data kv.1 with
      | some oldV => if oldV ≠ kv.2 then some (kv.1, ⟨oldV, kv.2⟩) else none
      | none => none)
    Removed := c.Data.filter (fun kv => (lookupS other.Data kv.1).isNone) }

/-- `ConfigDiff.HasChanges` from the source. -/
def ConfigDiff.HasChanges (d : ConfigDiff) : Bool :=
  d.Added.length > 0 || d.Modified.length > 0 || d.Removed.length > 0

/-- The subset of `corev1.Secret` the source reads and writes: object
metadata, type, and binary data. -/
structure Secret where
  Name : Str
  Namespace : Str
  Labels : List (Str × Str)
  SecretType : Str
  Data : List (Str × List UInt8)

/-- `Config.ToSecret` from the source: copy metadata, set the `Opaque`
type, and encode every value to bytes (Go's `[]byte(v)`). -/
def Config.ToSecret (c : Config) : Secret :=
  { Name := c.Name, Namespace := c.Namespace, Labels := c.Labels,
    SecretType := str "Opaque",
    Data := c.Data.map (fun kv => (kv.1, utf8Encode kv.2)) }

/-- `NewConfigFromSecret` from the source: copy metadata and decode every
value back to a string (Go's `string(v)`). -/
def NewConfigFromSecret (secret : Secret) : Config :=
  { Name := secret.Name, Namespace := secret.Namespace, Ty := .secret,
    Data := secret.Data.map (fun kv => (kv.1, utf8Decode kv.2)),
    Labels := secret.Labels }

/-- A Kubernetes API error as classified by `apimachinery`'s
`errors.IsNotFound`. -/
inductive APIError where
  | notFound (msg : Str)
  | other (msg : Str)
  deriving DecidableEq, Repr

/-- `errors.IsNotFound` from `apimachinery`. -/
def IsNotFound : APIError → Bool
  | .notFound _ => true
  | .other _ => false

/-- The error's text, used by `fmt.Errorf`'s `%w` wrapping. -/
def APIError.Message : APIError → Str
  | .notFound msg => msg
  | .other msg => msg

/-- `Client.DeleteConfigMap` from the source. The outcome of the
underlying API delete call is the `apiResult` argument (`none` means the
server deleted the object); a not-found outcome is swallowed, any other
error is wrapped with the operation and resource identity. -/
def DeleteConfigMap (apiResult : Option APIError) (ns nm : Str) : Option Str :=
  match apiResult with
  | none => none
  | some e =>
    if IsNotFound e then none
    else some (str "failed to delete configmap " ++ ns ++ str "/" ++ nm ++
      str ": " ++ e.Message)

/-- `Client.DeleteSecret` from the source: same shape as
`DeleteConfigMap` for secrets. -/
def DeleteSecret (apiResult : Option APIError) (ns nm : Str) : Option Str :=
  match apiResult with
  | none => none
  | some e =>
    if IsNotFound e then none
    else some (str "failed to delete secret " ++ ns ++ str "/" ++ nm ++
      str ": " ++ e.Message)

end ConfigPkg

namespace AppPkg

/-! ## App package (pkg/app): the unstructured-to-App entity mapper -/

/-- `SecretReference` from the source. -/
structure SecretReference where
  Name : Str := []
  Namespace : Str := []

/-- `ConfigMapReference` from the source. -/
structure ConfigMapReference where
  Name : Str := []
  Namespace : Str := []

/-- `AppConfig` from the source. -/
structure AppConfig where
  ConfigMap : Option ConfigMapReference := none
  Secret : Option SecretReference := none

/-- `KubeConfig` from the source. -/
structure KubeConfig where
  InCluster : Bool := false
  Secret : Option SecretReference := none

/-- `AppSpec` from the source; zero values are the Go zero values. -/
structure AppSpec where
  Catalog : Str := []
  Name : Str := []
  Namespace : Str := []
  Version : Str := []
  KubeConfig : KubeConfig := {}
  Config : Option AppConfig := none
  UserConfig : Option AppConfig := none

/-- `ReleaseStatus` from the source. -/
structure ReleaseStatus where
  LastDeployed : Str := []
  Status : Str := []

/-- `AppStatus` from the source. -/
structure AppStatus where
  AppVersion : Str := []
  Version : Str := []
  Release : ReleaseStatus := {}

/-- `App` from the source. -/
structure App where
  Name : Str
  Namespace : Str
  Spec : AppSpec := {}
  Status : AppStatus := {}

/-- `obj.GetName()`: the `metadata.name` string, or `""` when absent or
not a string. -/
def GetName (obj : List (Str × UVal)) : Str :=
  match lookupU obj (str "metadata") with
  | some (.m meta) =>
    match lookupU meta (str "name") with
    | some (.s v) => v
    | _ => []
  | _ => []

/-- `obj.GetNamespace()`: the `metadata.namespace` string, or `""`. -/
def GetNamespace (obj : List (Str × UVal)) : Str :=
  match lookupU obj (str "metadata") with
  | some (.m meta) =>
    match lookupU meta (str "namespace") with
    | some (.s v) => v
    | _ => []
  | _ => []

/-- Outcome of `unstructured.NestedMap(obj, key)`: the key may be absent
(found = false, no error), present with a non-map value (error), or
present as a map. -/
inductive NestedMapResult where
  | absent
  | wrongType
  | found (m : List (Str × UVal))

/-- `unstructured.NestedMap(obj.Object, key)` for a single key. -/
def nestedMapLookup (obj : List (Str × UVal)) (key : Str) : NestedMapResult :=
  match lookupU obj key with
  | none => .absent
  | some (.m m) => .found m
  | some _ => .wrongType

/-- The Go pattern `if v, ok := m[key].(string); ok { field = v }`:
a string value, or the zero value. -/
def strOf (m : List (Str × UVal)) (key : Str) : Str :=
  match lookupU m key with
  | some (.s v) => v
  | _ => []

/-- `parseAppConfig` from the source. -/
def parseAppConfig (config : List (Str × UVal)) : AppConfig :=
  { ConfigMap :=
      match lookupU config (str "configMap") with
      | some (.m cm) =>
        some { Name := strOf cm (str "name"), Namespace := strOf cm (str "namespace") }
      | _ => none
    Secret :=
      match lookupU config (str "secret") with
      | some (.m sec) =>
        some { Name := strOf sec (str "name"), Namespace := strOf sec (str "namespace") }
      | _ => none }

/-- `NewAppFromUnstructured` from the source: metadata first; a missing
`spec` returns the partial record with no error, a non-map `spec` is the
one fatal shape error; each spec/status field is a best-effort typed
extraction defaulting to the zero value. -/
def NewAppFromUnstructured (obj : List (Str × UVal)) : Except Str App :=
  let base : App := { Name := GetName obj, Namespace := GetNamespace obj }
  match nestedMapLookup obj (str "spec") with
  | .absent => .ok base
  | .wrongType => .error (str ".spec accessor error: not a map")
  | .found spec =>
    let withSpec : App := { base with Spec :=
      { Catalog := strOf spec (str "catalog")
        Name := strOf spec (str "name")
        Namespace := strOf spec (str "namespace")
        Version := strOf spec (str "version")
        KubeConfig :=
          { InCluster :=
              match lookupU spec (str "kubeConfig") with
              | some (.m kc) =>
                match lookupU kc (str "inCluster") with
                | some (.b v) => v
                | _ => false
              | _ => false }
        Config :=
          match lookupU spec (str "config") with
          | some (.m cm) => some (parseAppConfig cm)
          | _ => none
        UserConfig :=
          match lookupU spec (str "userConfig") with
          | some (.m um) => some (parseAppConfig um)
          | _ => none } }
    match nestedMapLookup obj (str "status") with
    | .found st =>
      .ok { withSpec with Status :=
        { AppVersion := strOf st (str "appVersion")
          Version := strOf st (str "version")
          Release :=
            match lookupU st (str "release") with
            | some (.m rel) =>
              { LastDeployed := strOf rel (str "lastDeployed")
                Status := strOf rel (str "status") }
            | _ => {} } }
    | _ => .ok withSpec

end AppPkg

namespace CatalogEntry

/-! ## AppCatalogEntry package (pkg/appcatalogentry): the entry record -/

/-- `CatalogReference` from the source. -/
structure CatalogReference where
  Name : Str := []
  Namespace : Str := []

/-- `ChartSpec` from the source. -/
structure ChartSpec where
  APIVersion : Str := []
  AppVersion : Str := []
  Description : Str := []
  Home : Str := []
  Icon : Str := []
  Keywords : List Str := []
  Name : Str := []
  Sources : List Str := []
  URLs : List Str := []
  Version : Str := []

/-- `Restrictions` from the source. -/
structure Restrictions where
  ClusterSingleton : Bool := false
  NamespaceSingleton : Bool := false
  FixedNamespace : Str := []
  GpuInstances : Bool := false

/-- `AppCatalogEntrySpec` from the source; `*time.Time` fields are
modelled as optional timestamp strings. -/
structure AppCatalogEntrySpec where
  AppName : Str := []
  AppVersion : Str := []
  Catalog : CatalogReference := {}
  Chart : ChartSpec := {}
  DateCreated : Option Str := none
  DateUpdated : Option Str := none
  Restrictions : Option Restrictions := none

/-- `AppCatalogEntry` from the source. -/
structure AppCatalogEntry where
  Name : Str
  Namespace : Str := []
  Spec : AppCatalogEntrySpec := {}
  Labels : List (Str × Str) := []
  Annotations : List (Str × Str) := []

end CatalogEntry

namespace Resources

/-! ## Resource provider (internal/resources): the schema resource fetch -/

/-- `SchemaResourceContent` from the source; the JSON schema is an
untyped tree. -/
structure SchemaResourceContent where
  AppName : Str
  Version : Str
  Schema : List (Str × UVal)
  Required : List Str := []
  Definitions : List (Str × UVal) := []

/-- The basic schema `getSchemaResource` generates from the chart
metadata (the source's literal `map[string]interface{}`). -/
def basicSchema (chart : CatalogEntry.ChartSpec) : List (Str × UVal) :=
  [ (str "type", .s (str "object")),
    (str "title", .s chart.Name),
    (str "description", .s chart.Description),
    (str "properties", .m
      [ (str "replicaCount", .m
          [ (str "type", .s (str "integer")),
            (str "description", .s (str "Number of replicas")),
            (str "default", .i 1) ]),
        (str "image", .m
          [ (str "type", .s (str "object")),
            (str "properties", .m
              [ (str "repository", .m
                  [ (str "type", .s (str "string")),
                    (str "description", .s (str "Image repository")) ]),
                (str "tag", .m
                  [ (str "type", .s (str "string")),
                    (str "description", .s (str "Image tag")) ]) ]) ]) ]) ]

/-- Linear scan for the entry named `searchName` (the source's `for`
loop with `break`). -/
def findEntry (entries : List CatalogEntry.AppCatalogEntry) (searchName : Str) :
    Option CatalogEntry.AppCatalogEntry :=
  entries.find? (fun entry => entry.Name = searchName)

/-- `Provider.getSchemaResource` from the source: list all catalog
entries (the outcome of that API call is the `entriesResult` argument),
compute `"<catalog>-<app>-<version>"`, scan for it, and either build the
basic schema from the matching entry's chart metadata or fail with a
not-found error. -/
def getSchemaResource (entriesResult : Except Str (List CatalogEntry.AppCatalogEntry))
    (uri : ResourceURI) : Except Str SchemaResourceContent :=
  match entriesResult with
  | .error e => .error (str "failed to list app catalog entries: " ++ e)
  | .ok entries =>
    let searchName := uri.Catalog ++ str "-" ++ uri.Name ++ str "-" ++ uri.Version
    match findEntry entries searchName with
    | none =>
      .error (str "app catalog entry not found for " ++ uri.Catalog ++ str "/" ++
        uri.Name ++ str "@" ++ uri.Version)
    | some targetEntry =>
      .ok { AppName := uri.Name, Version := uri.Version,
            Schema := basicSchema targetEntry.Spec.Chart }

end Resources

namespace Tools

/-! ## Config tools (pkg/tools/config): the secret.create and
secret.update handlers -/

/-- A Kubernetes API operation issued by a tool handler, in order. -/
inductive APICall where
  | getSecret (ns nm : Str)
  | createSecret (ns nm : Str)
  | updateSecret (ns nm : Str)
  deriving DecidableEq, Repr

/-- `strings.SplitN(s, sep, 2)` for a single-character separator:
`none` models the no-occurrence (length-1) result. -/
def splitOnceChar (c : Char) : Str → Option (Str × Str)
  | [] => none
  | x :: xs =>
    if x = c then some ([], xs)
    else
      match splitOnceChar c xs with
      | none => none
      | some (a, b) => some (x :: a, b)

/-- `strings.TrimSpace`, leading side. -/
def trimLeft : Str → Str
  | [] => []
  | x :: xs => if x.isWhitespace then trimLeft xs else x :: xs

/-- `strings.TrimSpace`. -/
def trim (s : Str) : Str := ((trimLeft s).reverse |> trimLeft).reverse

/-- The data-parsing loop shared by secret.create and secret.update:
split the data string on `,`, require `key=value` in every piece, trim
both sides, and populate the map; the first malformed piece aborts with
the handler's "invalid data format" error. -/
def parseKVList : List Str → List (Str × Str) → Except Str (List (Str × Str))
  | [], acc => .ok acc
  | kv :: rest, acc =>
    match splitOnceChar '=' kv with
    | none => .error (str "invalid data format: " ++ kv ++ str " (expected key=value)")
    | some (k, v) => parseKVList rest (ConfigPkg.upsert acc (trim k) (trim v))

/-- Parse a full `key=value,key=value` data argument. -/
def parseKVData (dataStr : Str) : Except Str (List (Str × Str)) :=
  parseKVList (Resources.splitChar ',' dataStr) []

/-- The label-parsing loop of secret.create (same shape, different error
text). -/
def parseLabelList : List Str → List (Str × Str) → Except Str (List (Str × Str))
  | [], acc => .ok acc
  | kv :: rest, acc =>
    match splitOnceChar '=' kv with
    | none => .error (str "invalid label format: " ++ kv ++ str " (expected key=value)")
    | some (k, v) => parseLabelList rest (ConfigPkg.upsert acc (trim k) (trim v))

/-- The Kubernetes client a handler calls, as an oracle for each
operation's outcome: `get` yields the current secret or an error;
`create` and `update` yield `none` on success or an error message. -/
structure SecretAPI where
  get : Str → Str → Except Str ConfigPkg.Config
  create : ConfigPkg.Config → Option Str
  update : ConfigPkg.Config → Option Str

/-- The secret.create tool handler: parse the data argument, parse the
labels argument, then issue the create call. The returned list records
the API calls issued, in order. -/
def secretCreateHandler (name ns dataStr appName labelsStr : Str)
    (api : SecretAPI) : List APICall × Except Str Str :=
  match parseKVData dataStr with
  | .error e => ([], .error e)
  | .ok data =>
    let labels0 : List (Str × Str) :=
      if appName ≠ [] then [(str "app.kubernetes.io/name", appName)] else []
    match (if labelsStr ≠ [] then
        parseLabelList (Resources.splitChar ',' labelsStr) labels0
      else .ok labels0) with
    | .error e => ([], .error e)
    | .ok labels =>
      let secret : ConfigPkg.Config :=
        { Name := name, Namespace := ns, Ty := .secret, Data := data, Labels := labels }
      match api.create secret with
      | some e => ([.createSecret ns name], .error e)
      | none =>
        ([.createSecret ns name],
          .ok (str "Successfully created secret " ++ ns ++ str "/" ++ name ++
            str " with " ++ (Nat.repr data.length).data ++ str " keys"))

/-- The secret.update tool handler: fetch the current secret first, then
apply a single-key update, or parse the data argument and replace or
merge, then issue the update call. -/
def secretUpdateHandler (name ns key value dataStr : Str) (merge : Bool)
    (api : SecretAPI) : List APICall × Except Str Str :=
  match api.get ns name with
  | .error e => ([.getSecret ns name], .error e)
  | .ok secret0 =>
    if key ≠ [] ∧ value ≠ [] then
      let secret := { secret0 with Data := ConfigPkg.upsert secret0.Data key value }
      match api.update secret with
      | some e => ([.getSecret ns name, .updateSecret ns name], .error e)
      | none =>
        ([.getSecret ns name, .updateSecret ns name],
          .ok (str "Successfully updated secret " ++ ns ++ str "/" ++ name))
    else if dataStr ≠ [] then
      match parseKVData dataStr with
      | .error e => ([.getSecret ns name], .error e)
      | .ok newData =>
        let secret :=
          if merge then
            { secret0 with
              Data := newData.foldl (fun acc kv => ConfigPkg.upsert acc kv.1 kv.2) secret0.Data }
          else { secret0 with Data := newData }
        match api.update secret with
        | some e => ([.getSecret ns name, .updateSecret ns name], .error e)
        | none =>
          ([.getSecret ns name, .updateSecret ns name],
            .ok (str "Successfully updated secret " ++ ns ++ str "/" ++ name))
    else
      ([.getSecret ns name], .error (str "either key/value or data must be specified"))

/-- A concrete client oracle whose calls all succeed, for exercising the
handlers on closed inputs. -/
def stubAPI : SecretAPI :=
  { get := fun ns nm =>
      .ok { Name := nm, Namespace := ns, Ty := .secret, Data := [], Labels := [] }
    create := fun _ => none
    update := fun _ => none }

end Tools

/-! ## Theorems -/

namespace Resources

theorem findScheme_prepend (a b : Str) (h : ∀ c ∈ a, c ≠ ':') :
    findScheme (a ++ ':' :: '/' :: '/' :: b) = some (a, b) := by
  induction a with
  | nil => simp [findScheme, str]
  | cons c a ih =>
    have hc : c ≠ ':' := h c (List.mem_cons_self ..)
    have ih' := ih (fun x hx => h x (List.mem_cons_of_mem _ hx))
    simp [findScheme, hc, ih']

theorem splitCharP_no_sep (c : Char) (l : Str) (h : ∀ x ∈ l, x ≠ c) :
    splitCharP c l = (l, []) := by
  induction l with
  | nil => rfl
  | cons x xs ih =>
    have hx : x ≠ c := h x (List.mem_cons_self ..)
    have ih' := ih (fun y hy => h y (List.mem_cons_of_mem _ hy))
    simp [splitCharP, hx, ih']

theorem splitCharP_append (c : Char) (xs ys : Str) (h : ∀ x ∈ xs, x ≠ c) :
    splitCharP c (xs ++ c :: ys) = (xs, (splitCharP c ys).1 :: (splitCharP c ys).2) := by
  induction xs with
  | nil => simp [splitCharP]
  | cons x t ih =>
    have hx : x ≠ c := h x (List.mem_cons_self ..)
    have ih' := ih (fun y hy => h y (List.mem_cons_of_mem _ hy))
    simp [splitCharP, hx, ih']

theorem splitChar_no_sep (c : Char) (l : Str) (h : ∀ x ∈ l, x ≠ c) :
    splitChar c l = [l] := by
  simp [splitChar, splitCharP_no_sep c l h]

theorem splitChar_append (c : Char) (xs ys : Str) (h : ∀ x ∈ xs, x ≠ c) :
    splitChar c (xs ++ c :: ys) = xs :: splitChar c ys := by
  simp [splitChar, splitCharP_append c xs ys h]

theorem splitCharP_no_sep_mem (c : Char) (l : Str) :
    (∀ x ∈ (splitCharP c l).1, x ≠ c) ∧
      (∀ s ∈ (splitCharP c l).2, ∀ x ∈ s, x ≠ c) := by
  induction l with
  | nil => simp [splitCharP]
  | cons x xs ih =>
    by_cases hx : x = c <;>
      simp only [splitCharP, hx, if_true, if_false, reduceIte] <;>
      constructor
    · simp
    · intro s hs
      rcases List.mem_cons.mp hs with h1 | h2
      · exact h1 ▸ ih.1
      · exact ih.2 s h2
    · intro y hy
      rcases List.mem_cons.mp hy with h1 | h2
      · exact h1 ▸ hx
      · exact ih.1 y h2
    · exact ih.2

theorem mem_splitChar (c : Char) (l : Str) (s : Str) (hs : s ∈ splitChar c l) :
    ∀ x ∈ s, x ≠ c := by
  rcases List.mem_cons.mp hs with h1 | h2
  · exact h1 ▸ (splitCharP_no_sep_mem c l).1
  · exact (splitCharP_no_sep_mem c l).2 s h2

theorem joinSlash_splitChar (l : Str) : joinSlash (splitChar '/' l) = l := by
  induction l with
  | nil => rfl
  | cons x xs ih =>
    by_cases hx : x = '/'
    · subst hx
      simp only [splitChar, splitCharP, if_true, reduceIte]
      show joinSlash ([] :: (splitCharP '/' xs).1 :: (splitCharP '/' xs).2) = '/' :: xs
      rw [joinSlash]
      exact congrArg ('/' :: ·) ih
    · simp only [splitChar, splitCharP, hx, if_false, reduceIte]
      show joinSlash ((x :: (splitCharP '/' xs).1) :: (splitCharP '/' xs).2) = x :: xs
      cases hp : (splitCharP '/' xs).2 with
      | nil =>
        rw [joinSlash]
        have : joinSlash (splitChar '/' xs) = xs := ih
        rw [splitChar, hp, joinSlash] at this
        rw [this]
      | cons h t =>
        rw [joinSlash]
        have : joinSlash (splitChar '/' xs) = xs := ih
        rw [splitChar, hp, joinSlash] at this
        simp [this]

theorem mem_splitChar_getElemBang (c : Char) (l : Str) (i : Nat) :
    ∀ x ∈ (splitChar c l)[i]!, x ≠ c := by
  by_cases hi : i < (splitChar c l).length
  · rw [getElem!_pos (splitChar c l) i hi]
    exact mem_splitChar c l _ (List.getElem_mem hi)
  · rw [getElem!_neg (splitChar c l) i hi]
    exact fun x hx => absurd hx (List.not_mem_nil x)

theorem parse_good (s : Str) (u : ResourceURI) (h : ParseResourceURI s = .ok u) :
    GoodURI u := by
  unfold ParseResourceURI at h
  cases hfs : findScheme s with
  | none => rw [hfs] at h; exact absurd h (by simp)
  | some p =>
    obtain ⟨scheme, path⟩ := p
    rw [hfs] at h
    simp only at h
    split_ifs at h
    all_goals
      first
        | exact Except.noConfusion h
        | (rw [Except.ok.injEq] at h
           subst h
           simp only [GoodURI]
           repeat' apply And.intro
           all_goals first | rfl | trivial | exact mem_splitChar_getElemBang _ _ _)

theorem reparse_app (ns nm : Str) (h1 : ∀ x ∈ ns, x ≠ '/') (h2 : ∀ x ∈ nm, x ≠ '/') :
    ParseResourceURI (str "app://" ++ ns ++ str "/" ++ nm) =
      .ok { Ty := .app, Namespace := ns, Name := nm } := by
  rw [show str "app://" ++ ns ++ str "/" ++ nm
      = str "app" ++ ':' :: '/' :: '/' :: (ns ++ '/' :: nm) by simp [str]]
  unfold ParseResourceURI
  rw [findScheme_prepend _ _ (by decide)]
  simp only
  rw [splitChar_append '/' ns nm h1, splitChar_no_sep '/' nm h2]
  simp

theorem reparse_catalog (nm : Str) (h : ∀ x ∈ nm, x ≠ '/') :
    ParseResourceURI (str "catalog://" ++ nm) = .ok { Ty := .catalog, Name := nm } := by
  have d1 : ¬ (str "catalog" = str "app") := by decide
  rw [show str "catalog://" ++ nm = str "catalog" ++ ':' :: '/' :: '/' :: nm by simp [str]]
  unfold ParseResourceURI
  rw [findScheme_prepend _ _ (by decide)]
  simp only
  rw [splitChar_no_sep '/' nm h]
  simp [d1]

theorem reparse_config (ns nm sub : Str)
    (h1 : ∀ x ∈ ns, x ≠ '/') (h2 : ∀ x ∈ nm, x ≠ '/') :
    ParseResourceURI (str "config://" ++ ns ++ str "/" ++ nm ++ str "/" ++ sub) =
      .ok { Ty := .config, Namespace := ns, Name := nm, SubPath := sub } := by
  have d1 : ¬ (str "config" = str "app") := by decide
  have d2 : ¬ (str "config" = str "catalog") := by decide
  rw [show str "config://" ++ ns ++ str "/" ++ nm ++ str "/" ++ sub
      = str "config" ++ ':' :: '/' :: '/' :: (ns ++ '/' :: (nm ++ '/' :: sub)) by simp [str]]
  unfold ParseResourceURI
  rw [findScheme_prepend _ _ (by decide)]
  simp only
  rw [splitChar_append '/' ns _ h1, splitChar_append '/' nm sub h2]
  simp only [splitChar, d1, d2, if_false, reduceIte, List.length_cons]
  rw [if_neg (by omega), if_pos (by omega)]
  rw [show List.drop 2 (ns :: nm :: (splitCharP '/' sub).1 :: (splitCharP '/' sub).2)
      = splitChar '/' sub from rfl, joinSlash_splitChar]
  simp

theorem reparse_schema (cat nm ver : Str) (h1 : ∀ x ∈ cat, x ≠ '/')
    (h2 : ∀ x ∈ nm, x ≠ '/') (h3 : ∀ x ∈ ver, x ≠ '/') :
    ParseResourceURI (str "schema://" ++ cat ++ str "/" ++ nm ++ str "/" ++ ver) =
      .ok { Ty := .schema, Catalog := cat, Name := nm, Version := ver } := by
  have d1 : ¬ (str "schema" = str "app") := by decide
  have d2 : ¬ (str "schema" = str "catalog") := by decide
  have d3 : ¬ (str "schema" = str "config") := by decide
  rw [show str "schema://" ++ cat ++ str "/" ++ nm ++ str "/" ++ ver
      = str "schema" ++ ':' :: '/' :: '/' :: (cat ++ '/' :: (nm ++ '/' :: ver)) by simp [str]]
  unfold ParseResourceURI
  rw [findScheme_prepend _ _ (by decide)]
  simp only
  rw [splitChar_append '/' cat _ h1, splitChar_append '/' nm ver h2,
    splitChar_no_sep '/' ver h3]
  simp [d1, d2, d3]

theorem reparse_changelog (cat nm : Str) (h1 : ∀ x ∈ cat, x ≠ '/')
    (h2 : ∀ x ∈ nm, x ≠ '/') :
    ParseResourceURI (str "changelog://" ++ cat ++ str "/" ++ nm) =
      .ok { Ty := .changelog, Catalog := cat, Name := nm } := by
  have d1 : ¬ (str "changelog" = str "app") := by decide
  have d2 : ¬ (str "changelog" = str "catalog") := by decide
  have d3 : ¬ (str "changelog" = str "config") := by decide
  have d4 : ¬ (str "changelog" = str "schema") := by decide
  rw [show str "changelog://" ++ cat ++ str "/" ++ nm
      = str "changelog" ++ ':' :: '/' :: '/' :: (cat ++ '/' :: nm) by simp [str]]
  unfold ParseResourceURI
  rw [findScheme_prepend _ _ (by decide)]
  simp only
  rw [splitChar_append '/' cat nm h1, splitChar_no_sep '/' nm h2]
  simp [d1, d2, d3, d4]

theorem reparse_of_good (u : ResourceURI) (h : GoodURI u) :
    ParseResourceURI u.String = .ok (canonicalURI u) := by
  obtain ⟨ty, ns, nm, cat, ver, sub⟩ := u
  cases ty with
  | app =>
    simp only [GoodURI] at h
    obtain ⟨h1, h2, hc, hv, hs⟩ := h
    subst hc; subst hv; subst hs
    simp only [ResourceURI.String]
    rw [reparse_app ns nm h1 h2]
    simp [canonicalURI]
  | catalog =>
    simp only [GoodURI] at h
    obtain ⟨h1, hn, hc, hv, hs⟩ := h
    subst hn; subst hc; subst hv; subst hs
    simp only [ResourceURI.String]
    rw [reparse_catalog nm h1]
    simp [canonicalURI]
  | config =>
    simp only [GoodURI] at h
    obtain ⟨h1, h2, hc, hv⟩ := h
    subst hc; subst hv
    by_cases hsub : sub = []
    · subst hsub
      simp only [ResourceURI.String]
      rw [if_neg (by simp)]
      rw [show str "config://" ++ ns ++ str "/" ++ nm ++ str "/values"
          = str "config://" ++ ns ++ str "/" ++ nm ++ str "/" ++ str "values" by simp [str]]
      rw [reparse_config ns nm (str "values") h1 h2]
      simp [canonicalURI]
    · simp only [ResourceURI.String]
      rw [if_pos hsub]
      rw [reparse_config ns nm sub h1 h2]
      simp [canonicalURI, hsub]
  | schema =>
    simp only [GoodURI] at h
    obtain ⟨h1, h2, h3, hn, hs⟩ := h
    subst hn; subst hs
    simp only [ResourceURI.String]
    rw [reparse_schema cat nm ver h1 h2 h3]
    simp [canonicalURI]
  | changelog =>
    simp only [GoodURI] at h
    obtain ⟨h1, h2, hn, hv, hs⟩ := h
    subst hn; subst hv; subst hs
    simp only [ResourceURI.String]
    rw [reparse_changelog cat nm h1 h2]
    simp [canonicalURI]

/-- Claim C1 (corrected). For every `ResourceURI` produced by a successful
`ParseResourceURI`, parsing the string produced by `ResourceURI.String`
succeeds and yields the URI back up to the `config` scheme defaulting an
empty sub-path to `values` (`canonicalURI`). The claim as frozen — exact
equality including the config sub-path field — fails, see the
counterexample theorem. -/
theorem parse_serialize_roundtrip_canonical (s : Str) (u : ResourceURI)
    (h : ParseResourceURI s = .ok u) :
    ParseResourceURI u.String = .ok (canonicalURI u) :=
  reparse_of_good u (parse_good s u h)

theorem parse_serialize_roundtrip_canonical_witness :
    ParseResourceURI (str "config://a/b/c/d") =
      .ok { Ty := .config, Namespace := str "a", Name := str "b", SubPath := str "c/d" } ∧
    ParseResourceURI (ResourceURI.String
      { Ty := .config, Namespace := str "a", Name := str "b", SubPath := str "c/d" }) =
      .ok (canonicalURI
        { Ty := .config, Namespace := str "a", Name := str "b", SubPath := str "c/d" }) :=
  ⟨by rfl, parse_serialize_roundtrip_canonical (str "config://a/b/c/d") _ (by rfl)⟩

/-- Claim C1, counterexample to the frozen statement: `config://a/b` parses
with an empty `SubPath`, but serializing and re-parsing yields
`SubPath = "values"`, not the original record. -/
theorem parse_serialize_roundtrip_cex :
    ParseResourceURI (str "config://a/b") =
      .ok { Ty := .config, Namespace := str "a", Name := str "b", SubPath := [] } ∧
    ParseResourceURI (ResourceURI.String
      { Ty := .config, Namespace := str "a", Name := str "b", SubPath := [] }) =
      .ok { Ty := .config, Namespace := str "a", Name := str "b", SubPath := str "values" } ∧
    ({ Ty := .config, Namespace := str "a", Name := str "b", SubPath := str "values" }
        : ResourceURI)
      ≠ { Ty := .config, Namespace := str "a", Name := str "b", SubPath := [] } :=
  ⟨by rfl, by rfl, by decide⟩

/-- Claim C4 (confirmed). For every string `app://ns/name` whose path part
contains exactly one `/` (i.e. neither segment contains `/`),
`ParseResourceURI` succeeds with the two segments as namespace and name,
and `ResourceURI.String` reproduces the original string exactly. -/
theorem app_uri_roundtrip (ns nm : Str)
    (h1 : ∀ x ∈ ns, x ≠ '/') (h2 : ∀ x ∈ nm, x ≠ '/') :
    ParseResourceURI (str "app://" ++ ns ++ str "/" ++ nm) =
      .ok { Ty := .app, Namespace := ns, Name := nm } ∧
    ResourceURI.String { Ty := .app, Namespace := ns, Name := nm }
      = str "app://" ++ ns ++ str "/" ++ nm :=
  ⟨reparse_app ns nm h1 h2, rfl⟩

theorem app_uri_roundtrip_witness :
    ParseResourceURI (str "app://my-ns/my-app") =
      .ok { Ty := .app, Namespace := str "my-ns", Name := str "my-app" } ∧
    ResourceURI.String { Ty := .app, Namespace := str "my-ns", Name := str "my-app" }
      = str "app://my-ns/my-app" :=
  app_uri_roundtrip (str "my-ns") (str "my-app") (by decide) (by decide)

/-- Claim C5 (confirmed). A URI with an unrecognized scheme fails with an
"unknown resource type" error, and a URI whose path has the wrong segment
count for its scheme — two for `app` and `changelog`, one for `catalog`,
at least two for `config`, three for `schema` — fails with the error
naming that scheme's expected path shape; no such input parses
successfully. -/
theorem parse_rejects_unknown_scheme_and_bad_segments :
    (∀ scheme path : Str, (∀ c ∈ scheme, c ≠ ':') →
      scheme ≠ str "app" → scheme ≠ str "catalog" → scheme ≠ str "config" →
      scheme ≠ str "schema" → scheme ≠ str "changelog" →
      ParseResourceURI (scheme ++ str "://" ++ path)
        = .error (str "unknown resource type: " ++ scheme)) ∧
    (∀ path : Str, (splitChar '/' path).length ≠ 2 →
      ParseResourceURI (str "app://" ++ path)
        = .error (str "invalid app resource path: expected namespace/name")) ∧
    (∀ path : Str, (splitChar '/' path).length ≠ 1 →
      ParseResourceURI (str "catalog://" ++ path)
        = .error (str "invalid catalog resource path: expected name")) ∧
    (∀ path : Str, (splitChar '/' path).length < 2 →
      ParseResourceURI (str "config://" ++ path)
        = .error (str "invalid config resource path: expected namespace/app/...")) ∧
    (∀ path : Str, (splitChar '/' path).length ≠ 3 →
      ParseResourceURI (str "schema://" ++ path)
        = .error (str "invalid schema resource path: expected catalog/app/version")) ∧
    (∀ path : Str, (splitChar '/' path).length ≠ 2 →
      ParseResourceURI (str "changelog://" ++ path)
        = .error (str "invalid changelog resource path: expected catalog/app")) := by
  refine ⟨?_, ?_, ?_, ?_, ?_, ?_⟩
  · intro scheme path hcolon h1 h2 h3 h4 h5
    rw [show scheme ++ str "://" ++ path = scheme ++ ':' :: '/' :: '/' :: path by simp [str]]
    unfold ParseResourceURI
    rw [findScheme_prepend _ _ hcolon]
    simp [h1, h2, h3, h4, h5]
  · intro path hlen
    rw [show str "app://" ++ path = str "app" ++ ':' :: '/' :: '/' :: path by simp [str]]
    unfold ParseResourceURI
    rw [findScheme_prepend _ _ (by decide)]
    simp [hlen]
  · intro path hlen
    have d1 : ¬ (str "catalog" = str "app") := by decide
    rw [show str "catalog://" ++ path = str "catalog" ++ ':' :: '/' :: '/' :: path by
      simp [str]]
    unfold ParseResourceURI
    rw [findScheme_prepend _ _ (by decide)]
    simp [d1, hlen]
  · intro path hlen
    have d1 : ¬ (str "config" = str "app") := by decide
    have d2 : ¬ (str "config" = str "catalog") := by decide
    rw [show str "config://" ++ path = str "config" ++ ':' :: '/' :: '/' :: path by
      simp [str]]
    unfold ParseResourceURI
    rw [findScheme_prepend _ _ (by decide)]
    simp [d1, d2, hlen]
  · intro path hlen
    have d1 : ¬ (str "schema" = str "app") := by decide
    have d2 : ¬ (str "schema" = str "catalog") := by decide
    have d3 : ¬ (str "schema" = str "config") := by decide
    rw [show str "schema://" ++ path = str "schema" ++ ':' :: '/' :: '/' :: path by
      simp [str]]
    unfold ParseResourceURI
    rw [findScheme_prepend _ _ (by decide)]
    simp [d1, d2, d3, hlen]
  · intro path hlen
    have d1 : ¬ (str "changelog" = str "app") := by decide
    have d2 : ¬ (str "changelog" = str "catalog") := by decide
    have d3 : ¬ (str "changelog" = str "config") := by decide
    have d4 : ¬ (str "changelog" = str "schema") := by decide
    rw [show str "changelog://" ++ path
        = str "changelog" ++ ':' :: '/' :: '/' :: path by simp [str]]
    unfold ParseResourceURI
    rw [findScheme_prepend _ _ (by decide)]
    simp [d1, d2, d3, d4, hlen]

theorem parse_rejects_unknown_scheme_and_bad_segments_witness :
    ParseResourceURI (str "unknownscheme://x")
      = .error (str "unknown resource type: unknownscheme") ∧
    ParseResourceURI (str "app://onlyonesegment")
      = .error (str "invalid app resource path: expected namespace/name") ∧
    ParseResourceURI (str "catalog://a/b")
      = .error (str "invalid catalog resource path: expected name") ∧
    ParseResourceURI (str "config://onlyonesegment")
      = .error (str "invalid config resource path: expected namespace/app/...") ∧
    ParseResourceURI (str "schema://a/b")
      = .error (str "invalid schema resource path: expected catalog/app/version") ∧
    ParseResourceURI (str "changelog://a")
      = .error (str "invalid changelog resource path: expected catalog/app") :=
  ⟨parse_rejects_unknown_scheme_and_bad_segments.1 (str "unknownscheme") (str "x")
      (by decide) (by decide) (by decide) (by decide) (by decide) (by decide),
    parse_rejects_unknown_scheme_and_bad_segments.2.1 (str "onlyonesegment") (by decide),
    parse_rejects_unknown_scheme_and_bad_segments.2.2.1 (str "a/b") (by decide),
    parse_rejects_unknown_scheme_and_bad_segments.2.2.2.1 (str "onlyonesegment")
      (by decide),
    parse_rejects_unknown_scheme_and_bad_segments.2.2.2.2.1 (str "a/b") (by decide),
    parse_rejects_unknown_scheme_and_bad_segments.2.2.2.2.2 (str "a") (by decide)⟩


end Resources

/-! ### Entity mapper, tool handlers, schema lookup, delete tolerance -/

/-- Claim C3 (confirmed). When the top-level `spec` key is absent, the
unstructured-to-App decoder returns, with no error, a record whose Name
and Namespace come from the object's metadata and whose Spec (and
Status) fields are all zero values. -/
theorem appFromUnstructured_missing_spec (obj : List (Str × UVal))
    (h : lookupU obj (str "spec") = none) :
    AppPkg.NewAppFromUnstructured obj
      = .ok { Name := AppPkg.GetName obj, Namespace := AppPkg.GetNamespace obj } := by
  unfold AppPkg.NewAppFromUnstructured AppPkg.nestedMapLookup
  rw [h]

theorem appFromUnstructured_missing_spec_witness :
    lookupU [(str "metadata", UVal.m
        [(str "name", UVal.s (str "a")), (str "namespace", UVal.s (str "b"))])]
      (str "spec") = none ∧
    AppPkg.NewAppFromUnstructured [(str "metadata", UVal.m
        [(str "name", UVal.s (str "a")), (str "namespace", UVal.s (str "b"))])]
      = .ok { Name := str "a", Namespace := str "b" } :=
  ⟨by rfl, appFromUnstructured_missing_spec _ (by rfl)⟩

/-- Claim C2 (corrected). The secret.create handler rejects a malformed
`key=value` data string before issuing any API call; the secret.update
handler rejects it before any mutating call, but only after the initial
`Get` of the existing secret has been issued (it fetches the current
secret before validating the data argument). The claim as frozen —
validation strictly before any API call for both tools — fails on the
update tool, see the counterexample theorem. -/
theorem secret_tools_reject_malformed_data
    (name ns dataStr appName labelsStr key value : Str) (merge : Bool)
    (api : Tools.SecretAPI) (cfg : ConfigPkg.Config) (e : Str)
    (hget : api.get ns name = .ok cfg)
    (hkv : ¬(key ≠ [] ∧ value ≠ []))
    (hdata : dataStr ≠ [])
    (hparse : Tools.parseKVData dataStr = .error e) :
    Tools.secretCreateHandler name ns dataStr appName labelsStr api = ([], .error e) ∧
    Tools.secretUpdateHandler name ns key value dataStr merge api
      = ([.getSecret ns name], .error e) := by
  constructor
  · unfold Tools.secretCreateHandler
    rw [hparse]
  · unfold Tools.secretUpdateHandler
    rw [hget]
    simp only
    rw [if_neg hkv, if_pos hdata, hparse]

theorem secret_tools_reject_malformed_data_witness :
    Tools.stubAPI.get (str "n") (str "s")
      = .ok { Name := str "s", Namespace := str "n", Ty := .secret,
              Data := [], Labels := [] } ∧
    Tools.parseKVData (str "garbage")
      = .error (str "invalid data format: garbage (expected key=value)") ∧
    (Tools.secretCreateHandler (str "s") (str "n") (str "garbage") [] [] Tools.stubAPI
      = ([], .error (str "invalid data format: garbage (expected key=value)")) ∧
    Tools.secretUpdateHandler (str "s") (str "n") [] [] (str "garbage") false Tools.stubAPI
      = ([.getSecret (str "n") (str "s")],
          .error (str "invalid data format: garbage (expected key=value)"))) :=
  ⟨by rfl, by rfl,
    secret_tools_reject_malformed_data (str "s") (str "n") (str "garbage") [] [] [] []
      false Tools.stubAPI _ _ (by rfl) (by simp) (by decide) (by rfl)⟩

/-- Claim C2, counterexample to the frozen statement: with a client whose
calls succeed, the update tool invoked with the malformed data string
`garbage` returns the validation error, yet its API-call trace already
contains the `Get` — the validation error was not raised before all API
calls. -/
theorem secret_update_validates_after_get_cex :
    (Tools.secretUpdateHandler (str "s") (str "n") [] [] (str "garbage") false
        Tools.stubAPI).2
      = .error (str "invalid data format: garbage (expected key=value)") ∧
    (Tools.secretUpdateHandler (str "s") (str "n") [] [] (str "garbage") false
        Tools.stubAPI).1
      = [.getSecret (str "n") (str "s")] ∧
    (Tools.secretUpdateHandler (str "s") (str "n") [] [] (str "garbage") false
        Tools.stubAPI).1 ≠ ([] : List Tools.APICall) :=
  ⟨by rfl, by rfl, by decide⟩

/-- Claim C6 (confirmed). When no catalog entry is named
`<catalog>-<app>-<version>` (in particular when the entry list is empty),
`getSchemaResource` returns the not-found error — it is a total function,
so it neither panics nor returns an empty success. -/
theorem schema_lookup_not_found (entries : List CatalogEntry.AppCatalogEntry)
    (uri : Resources.ResourceURI)
    (h : ∀ e ∈ entries,
      e.Name ≠ uri.Catalog ++ str "-" ++ uri.Name ++ str "-" ++ uri.Version) :
    Resources.getSchemaResource (.ok entries) uri
      = .error (str "app catalog entry not found for " ++ uri.Catalog ++ str "/" ++
          uri.Name ++ str "@" ++ uri.Version) := by
  have hfind : Resources.findEntry entries
      (uri.Catalog ++ str "-" ++ uri.Name ++ str "-" ++ uri.Version) = none := by
    unfold Resources.findEntry
    rw [List.find?_eq_none]
    intro x hx
    simpa using h x hx
  unfold Resources.getSchemaResource
  simp only
  rw [hfind]

theorem schema_lookup_not_found_witness :
    Resources.getSchemaResource (.ok [])
      { Ty := .schema, Catalog := str "giantswarm", Name := str "nginx",
        Version := str "9.9.9" }
      = .error (str "app catalog entry not found for giantswarm/nginx@9.9.9") := by
  have := schema_lookup_not_found []
    { Ty := .schema, Catalog := str "giantswarm", Name := str "nginx",
      Version := str "9.9.9" }
    (by intro e he; exact absurd he (List.not_mem_nil e))
  exact this

/-- Claim C10 (confirmed). `DeleteConfigMap` and `DeleteSecret` treat a
not-found API outcome as success: they return no error when the target
does not exist (or when the delete succeeds), and wrap any other API
error with the operation and resource identity. -/
theorem delete_tolerates_not_found :
    (∀ ns nm : Str, ConfigPkg.DeleteConfigMap none ns nm = none) ∧
    (∀ ns nm msg : Str, ConfigPkg.DeleteConfigMap (some (.notFound msg)) ns nm = none) ∧
    (∀ ns nm msg : Str, ConfigPkg.DeleteConfigMap (some (.other msg)) ns nm
      = some (str "failed to delete configmap " ++ ns ++ str "/" ++ nm ++
          str ": " ++ msg)) ∧
    (∀ ns nm : Str, ConfigPkg.DeleteSecret none ns nm = none) ∧
    (∀ ns nm msg : Str, ConfigPkg.DeleteSecret (some (.notFound msg)) ns nm = none) ∧
    (∀ ns nm msg : Str, ConfigPkg.DeleteSecret (some (.other msg)) ns nm
      = some (str "failed to delete secret " ++ ns ++ str "/" ++ nm ++
          str ": " ++ msg)) :=
  ⟨fun _ _ => rfl, fun _ _ _ => rfl, fun _ _ _ => rfl,
    fun _ _ => rfl, fun _ _ _ => rfl, fun _ _ _ => rfl⟩

/-! ### Config diff and merge -/

namespace ConfigPkg

theorem lookupS_eq_none_iff (l : List (Str × Str)) (k : Str) :
    lookupS l k = none ↔ k ∉ l.map Prod.fst := by
  induction l with
  | nil => simp [lookupS]
  | cons p t ih =>
    obtain ⟨k0, v0⟩ := p
    by_cases hk : k0 = k
    · subst hk
      simp [lookupS]
    · have hk' : ¬ k = k0 := fun h => hk h.symm
      simp [lookupS, hk, hk', ih]

theorem lookupS_eq_some_iff (l : List (Str × Str)) (hu : KeysUnique l) (k v : Str) :
    lookupS l k = some v ↔ (k, v) ∈ l := by
  induction l with
  | nil => simp [lookupS]
  | cons p t ih =>
    obtain ⟨k0, v0⟩ := p
    rw [KeysUnique, List.map_cons, List.nodup_cons] at hu
    by_cases hk : k0 = k
    · subst hk
      have ht : ∀ w, (k0, w) ∉ t := by
        intro w hw
        exact hu.1 (List.mem_map.mpr ⟨(k0, w), hw, rfl⟩)
      simp only [lookupS, if_pos rfl, List.mem_cons]
      constructor
      · intro h
        exact Or.inl (by simpa using h.symm)
      · rintro (h | h)
        · simpa using h.symm
        · exact absurd h (ht v)
    · have hk' : ¬ k = k0 := fun h => hk h.symm
      simp [lookupS, hk, hk', ih hu.2]

theorem lookupS_upsert (l : List (Str × Str)) (key val k : Str) :
    lookupS (upsert l key val) k = if key = k then some val else lookupS l k := by
  induction l with
  | nil => simp [upsert, lookupS]
  | cons p t ih =>
    obtain ⟨k0, v0⟩ := p
    by_cases h0 : k0 = key
    · subst h0
      simp only [upsert, if_pos rfl]
      by_cases hk : k0 = k
      · subst hk
        simp [lookupS]
      · simp [lookupS, hk]
    · simp only [upsert, if_neg h0]
      by_cases hk : k0 = k
      · subst hk
        have hkey : ¬ k0 = k0 → False := fun h => h rfl
        have h0' : ¬ key = k0 := fun h => h0 h.symm
        simp [lookupS, h0']
      · simp [lookupS, hk, ih]

theorem foldl_upsert_lookup (l : List (Str × Str)) :
    ∀ (acc : List (Str × Str)) (k : Str), (l.map Prod.fst).Nodup →
    lookupS (l.foldl (fun a kv => upsert a kv.1 kv.2) acc) k =
      (match lookupS l k with
       | some v => some v
       | none => lookupS acc k) := by
  induction l with
  | nil =>
    intro acc k _
    simp [lookupS]
  | cons p t ih =>
    obtain ⟨k0, v0⟩ := p
    intro acc k hu
    rw [List.map_cons, List.nodup_cons] at hu
    rw [List.foldl_cons, ih (upsert acc k0 v0) k hu.2]
    by_cases hk : k0 = k
    · subst hk
      have ht : lookupS t k0 = none := (lookupS_eq_none_iff t k0).mpr hu.1
      simp [lookupS, ht, lookupS_upsert]
    · cases hlt : lookupS t k with
      | some v => simp [lookupS, hk, hlt]
      | none => simp [lookupS, hk, hlt, lookupS_upsert]

/-- Claim C8 (confirmed). After `MergeWith`, the receiver's data maps each
key to the other configuration's value when the other defines that key
(last-writer-wins) and to its own prior value otherwise; merging a
configuration with no keys into the receiver leaves it unchanged. -/
theorem mergeWith_last_writer_wins (c other : Config) (hu : KeysUnique other.Data) :
    (∀ k v, lookupS other.Data k = some v →
      lookupS (c.MergeWith other).Data k = some v) ∧
    (∀ k, lookupS other.Data k = none →
      lookupS (c.MergeWith other).Data k = lookupS c.Data k) ∧
    (∀ c2 : Config, c2.Data = [] → c.MergeWith c2 = c) := by
  refine ⟨?_, ?_, ?_⟩
  · intro k v hk
    unfold Config.MergeWith
    simp only
    rw [foldl_upsert_lookup other.Data c.Data k hu, hk]
  · intro k hk
    unfold Config.MergeWith
    simp only
    rw [foldl_upsert_lookup other.Data c.Data k hu, hk]
  · intro c2 h2
    unfold Config.MergeWith
    rw [h2]
    rfl

theorem mergeWith_last_writer_wins_witness :
    KeysUnique [(str "k1", str "v2"), (str "k3", str "v3")] ∧
    lookupS (Config.MergeWith
        { Name := str "a", Namespace := str "ns", Ty := .configmap,
          Data := [(str "k1", str "v1")], Labels := [] }
        { Name := str "b", Namespace := str "ns", Ty := .configmap,
          Data := [(str "k1", str "v2"), (str "k3", str "v3")], Labels := [] }).Data
      (str "k1") = some (str "v2") ∧
    Config.MergeWith
        { Name := str "a", Namespace := str "ns", Ty := .configmap,
          Data := [(str "k1", str "v1")], Labels := [] }
        { Name := str "b", Namespace := str "ns", Ty := .configmap,
          Data := [], Labels := [] }
      = { Name := str "a", Namespace := str "ns", Ty := .configmap,
          Data := [(str "k1", str "v1")], Labels := [] } :=
  ⟨by unfold KeysUnique; decide,
    (mergeWith_last_writer_wins
      { Name := str "a", Namespace := str "ns", Ty := .configmap,
        Data := [(str "k1", str "v1")], Labels := [] }
      { Name := str "b", Namespace := str "ns", Ty := .configmap,
        Data := [(str "k1", str "v2"), (str "k3", str "v3")], Labels := [] }
      (by unfold KeysUnique; decide)).1 (str "k1") (str "v2") (by rfl),
    (mergeWith_last_writer_wins
      { Name := str "a", Namespace := str "ns", Ty := .configmap,
        Data := [(str "k1", str "v1")], Labels := [] }
      { Name := str "b", Namespace := str "ns", Ty := .configmap,
        Data := [(str "k1", str "v2"), (str "k3", str "v3")], Labels := [] }
      (by unfold KeysUnique; decide)).2.2
      { Name := str "b", Namespace := str "ns", Ty := .configmap,
        Data := [], Labels := [] } (by rfl)⟩

end ConfigPkg

namespace ConfigPkg

theorem mem_diff_added (A B : Config) (hB : KeysUnique B.Data) (k v : Str) :
    (k, v) ∈ (A.Diff B).Added ↔
      lookupS B.Data k = some v ∧ lookupS A.Data k = none := by
  unfold Config.Diff
  simp only [List.mem_filter, Option.isNone_iff_eq_none, decide_eq_true_eq]
  rw [lookupS_eq_some_iff B.Data hB k v]

theorem mem_diff_removed (A B : Config) (hA : KeysUnique A.Data) (k v : Str) :
    (k, v) ∈ (A.Diff B).Removed ↔
      lookupS A.Data k = some v ∧ lookupS B.Data k = none := by
  unfold Config.Diff
  simp only [List.mem_filter, Option.isNone_iff_eq_none, decide_eq_true_eq]
  rw [lookupS_eq_some_iff A.Data hA k v]

theorem mem_diff_modified (A B : Config) (hB : KeysUnique B.Data) (k o n : Str) :
    (k, ⟨o, n⟩) ∈ (A.Diff B).Modified ↔
      lookupS A.Data k = some o ∧ lookupS B.Data k = some n ∧ o ≠ n := by
  unfold Config.Diff
  simp only [List.mem_filterMap]
  constructor
  · rintro ⟨⟨k1, v1⟩, hmem, hf⟩
    simp only at hf
    cases hA1 : lookupS A.Data k1 with
    | none =>
      rw [hA1] at hf
      exact absurd hf (by simp)
    | some oldV =>
      rw [hA1] at hf
      simp only at hf
      by_cases hne : oldV ≠ v1
      · rw [if_pos hne] at hf
        rw [Option.some.injEq, Prod.mk.injEq, DiffEntry.mk.injEq] at hf
        obtain ⟨hk1, ho, hn⟩ := hf
        subst hk1
        subst ho
        subst hn
        exact ⟨hA1, (lookupS_eq_some_iff B.Data hB _ _).mpr hmem, hne⟩
      · rw [if_neg hne] at hf
        exact absurd hf (by simp)
  · rintro ⟨hA1, hB1, hne⟩
    refine ⟨(k, n), (lookupS_eq_some_iff B.Data hB k n).mp hB1, ?_⟩
    simp only [hA1]
    rw [if_pos hne]

theorem hasChanges_iff (d : ConfigDiff) :
    d.HasChanges = true ↔
      (d.Added ≠ [] ∨ d.Modified ≠ [] ∨ d.Removed ≠ []) := by
  unfold ConfigDiff.HasChanges
  simp [List.length_pos]
  tauto

/-- Claim C7 (confirmed). `Diff` classifies keys exactly: `Added` holds
precisely the keys bound in the second configuration but not the first
(with the second's values), `Removed` precisely those bound in the first
but not the second (with the first's values), `Modified` precisely those
bound in both with differing values, and `HasChanges` is true iff any of
the three maps is non-empty. -/
theorem diff_classifies (A B : Config)
    (hA : KeysUnique A.Data) (hB : KeysUnique B.Data) :
    (∀ k v, (k, v) ∈ (A.Diff B).Added ↔
      lookupS B.Data k = some v ∧ lookupS A.Data k = none) ∧
    (∀ k o n, (k, ⟨o, n⟩) ∈ (A.Diff B).Modified ↔
      lookupS A.Data k = some o ∧ lookupS B.Data k = some n ∧ o ≠ n) ∧
    (∀ k v, (k, v) ∈ (A.Diff B).Removed ↔
      lookupS A.Data k = some v ∧ lookupS B.Data k = none) ∧
    ((A.Diff B).HasChanges = true ↔
      ((A.Diff B).Added ≠ [] ∨ (A.Diff B).Modified ≠ [] ∨ (A.Diff B).Removed ≠ [])) :=
  ⟨fun k v => mem_diff_added A B hB k v,
    fun k o n => mem_diff_modified A B hB k o n,
    fun k v => mem_diff_removed A B hA k v,
    hasChanges_iff (A.Diff B)⟩

theorem diff_classifies_witness :
    KeysUnique [(str "k1", str "v1"), (str "k2", str "v2")] ∧
    KeysUnique [(str "k1", str "v1"), (str "k3", str "v3")] ∧
    Config.Diff
        { Name := str "a", Namespace := str "ns", Ty := .configmap,
          Data := [(str "k1", str "v1"), (str "k2", str "v2")], Labels := [] }
        { Name := str "b", Namespace := str "ns", Ty := .configmap,
          Data := [(str "k1", str "v1"), (str "k3", str "v3")], Labels := [] }
      = { Added := [(str "k3", str "v3")], Modified := [],
          Removed := [(str "k2", str "v2")] } ∧
    (Config.Diff
        { Name := str "a", Namespace := str "ns", Ty := .configmap,
          Data := [(str "k1", str "v1"), (str "k2", str "v2")], Labels := [] }
        { Name := str "b", Namespace := str "ns", Ty := .configmap,
          Data := [(str "k1", str "v1"), (str "k3", str "v3")], Labels := [] }).HasChanges
      = true ∧
    ((str "k3", str "v3") ∈ (Config.Diff
        { Name := str "a", Namespace := str "ns", Ty := .configmap,
          Data := [(str "k1", str "v1"), (str "k2", str "v2")], Labels := [] }
        { Name := str "b", Namespace := str "ns", Ty := .configmap,
          Data := [(str "k1", str "v1"), (str "k3", str "v3")], Labels := [] }).Added ↔
      lookupS [(str "k1", str "v1"), (str "k3", str "v3")] (str "k3") = some (str "v3") ∧
      lookupS [(str "k1", str "v1"), (str "k2", str "v2")] (str "k3") = none) :=
  ⟨by unfold KeysUnique; decide, by unfold KeysUnique; decide, by rfl, by rfl,
    (diff_classifies
      { Name := str "a", Namespace := str "ns", Ty := .configmap,
        Data := [(str "k1", str "v1"), (str "k2", str "v2")], Labels := [] }
      { Name := str "b", Namespace := str "ns", Ty := .configmap,
        Data := [(str "k1", str "v1"), (str "k3", str "v3")], Labels := [] }
      (by unfold KeysUnique; decide) (by unfold KeysUnique; decide)).1
      (str "k3") (str "v3")⟩

end ConfigPkg

theorem toNatOfNat8 (n : Nat) : (UInt8.ofNat n).toNat = n % 256 := UInt8.toNat_ofNat n

theorem char_valid_bounds (c : Char) :
    c.toNat < 0xD800 ∨ (0xE000 ≤ c.toNat ∧ c.toNat < 0x110000) := by
  have h := c.valid
  rcases h with h | ⟨h1, h2⟩
  · exact Or.inl h
  · exact Or.inr ⟨h1, h2⟩

theorem utf8DecodeChar_encodeChar (c : Char) (rest : List UInt8) :
    utf8DecodeChar (utf8EncodeChar c ++ rest)
      = some (c, (utf8EncodeChar c).length) := by
  have hb := char_valid_bounds c
  unfold utf8EncodeChar
  by_cases h1 : c.toNat < 0x80
  · rw [if_pos h1]
    simp only [List.singleton_append, List.length_singleton]
    unfold utf8DecodeChar
    simp only [toNatOfNat8]
    rw [Nat.mod_eq_of_lt (by omega)]
    rw [if_pos h1, Char.ofNat_toNat]
  · rw [if_neg h1]
    by_cases h2 : c.toNat < 0x800
    · rw [if_pos h2]
      simp only [List.cons_append, List.singleton_append, List.length_cons,
        List.length_singleton]
      unfold utf8DecodeChar
      simp only [toNatOfNat8]
      rw [Nat.mod_eq_of_lt (show 0xC0 + c.toNat / 0x40 < 256 by omega)]
      rw [if_neg (by omega), if_neg (by omega), if_pos (by omega)]
      rw [if_pos (show IsCont (UInt8.ofNat (0x80 + c.toNat % 0x40)) by
        unfold IsCont; rw [toNatOfNat8]; omega)]
      simp only [contVal, toNatOfNat8]
      rw [if_pos (by omega)]
      rw [show (0xC0 + c.toNat / 0x40 - 0xC0) * 0x40 +
          ((0x80 + c.toNat % 0x40) % 256 - 0x80) = c.toNat by omega]
      rw [Char.ofNat_toNat]
      rfl
    · rw [if_neg h2]
      by_cases h3 : c.toNat < 0x10000
      · rw [if_pos h3]
        simp only [List.cons_append, List.singleton_append, List.length_cons,
          List.length_singleton]
        unfold utf8DecodeChar
        simp only [toNatOfNat8]
        rw [Nat.mod_eq_of_lt (show 0xE0 + c.toNat / 0x1000 < 256 by omega)]
        rw [if_neg (by omega), if_neg (by omega), if_neg (by omega), if_pos (by omega)]
        rw [if_pos (show IsCont (UInt8.ofNat (0x80 + c.toNat / 0x40 % 0x40)) ∧
            IsCont (UInt8.ofNat (0x80 + c.toNat % 0x40)) by
          unfold IsCont; simp only [toNatOfNat8]; omega)]
        simp only [contVal, toNatOfNat8]
        rw [if_pos (show 0x800 ≤ (0xE0 + c.toNat / 0x1000 - 0xE0) * 0x1000 +
            ((0x80 + c.toNat / 0x40 % 0x40) % 256 - 0x80) * 0x40 +
            ((0x80 + c.toNat % 0x40) % 256 - 0x80) ∧
            ¬(0xD800 ≤ (0xE0 + c.toNat / 0x1000 - 0xE0) * 0x1000 +
            ((0x80 + c.toNat / 0x40 % 0x40) % 256 - 0x80) * 0x40 +
            ((0x80 + c.toNat % 0x40) % 256 - 0x80) ∧
            (0xE0 + c.toNat / 0x1000 - 0xE0) * 0x1000 +
            ((0x80 + c.toNat / 0x40 % 0x40) % 256 - 0x80) * 0x40 +
            ((0x80 + c.toNat % 0x40) % 256 - 0x80) < 0xE000) by omega)]
        rw [show (0xE0 + c.toNat / 0x1000 - 0xE0) * 0x1000 +
            ((0x80 + c.toNat / 0x40 % 0x40) % 256 - 0x80) * 0x40 +
            ((0x80 + c.toNat % 0x40) % 256 - 0x80) = c.toNat by omega]
        rw [Char.ofNat_toNat]
        rfl
      · rw [if_neg h3]
        simp only [List.cons_append, List.singleton_append, List.length_cons,
          List.length_singleton]
        unfold utf8DecodeChar
        simp only [toNatOfNat8]
        rw [Nat.mod_eq_of_lt (show 0xF0 + c.toNat / 0x40000 < 256 by omega)]
        rw [if_neg (by omega), if_neg (by omega), if_neg (by omega), if_neg (by omega),
          if_pos (by omega)]
        rw [if_pos (show IsCont (UInt8.ofNat (0x80 + c.toNat / 0x1000 % 0x40)) ∧
            IsCont (UInt8.ofNat (0x80 + c.toNat / 0x40 % 0x40)) ∧
            IsCont (UInt8.ofNat (0x80 + c.toNat % 0x40)) by
          unfold IsCont; simp only [toNatOfNat8]; omega)]
        simp only [contVal, toNatOfNat8]
        rw [if_pos (show 0x10000 ≤ (0xF0 + c.toNat / 0x40000 - 0xF0) * 0x40000 +
            ((0x80 + c.toNat / 0x1000 % 0x40) % 256 - 0x80) * 0x1000 +
            ((0x80 + c.toNat / 0x40 % 0x40) % 256 - 0x80) * 0x40 +
            ((0x80 + c.toNat % 0x40) % 256 - 0x80) ∧
            (0xF0 + c.toNat / 0x40000 - 0xF0) * 0x40000 +
            ((0x80 + c.toNat / 0x1000 % 0x40) % 256 - 0x80) * 0x1000 +
            ((0x80 + c.toNat / 0x40 % 0x40) % 256 - 0x80) * 0x40 +
            ((0x80 + c.toNat % 0x40) % 256 - 0x80) < 0x110000 by omega)]
        rw [show (0xF0 + c.toNat / 0x40000 - 0xF0) * 0x40000 +
            ((0x80 + c.toNat / 0x1000 % 0x40) % 256 - 0x80) * 0x1000 +
            ((0x80 + c.toNat / 0x40 % 0x40) % 256 - 0x80) * 0x40 +
            ((0x80 + c.toNat % 0x40) % 256 - 0x80) = c.toNat by omega]
        rw [Char.ofNat_toNat]
        rfl

theorem utf8EncodeChar_length_pos (c : Char) : 1 ≤ (utf8EncodeChar c).length := by
  unfold utf8EncodeChar
  simp only
  split_ifs <;> simp

theorem utf8DecodeAux_encode (s : Str) :
    ∀ fuel, (utf8Encode s).length ≤ fuel → utf8DecodeAux fuel (utf8Encode s) = s := by
  induction s with
  | nil =>
    intro fuel _
    cases fuel <;> rfl
  | cons c t ih =>
    intro fuel hfuel
    have henc : utf8Encode (c :: t) = utf8EncodeChar c ++ utf8Encode t := by
      simp [utf8Encode]
    rw [henc] at hfuel ⊢
    have hpos := utf8EncodeChar_length_pos c
    cases fuel with
    | zero =>
      exfalso
      rw [List.length_append] at hfuel
      omega
    | succ f =>
      cases hc : utf8EncodeChar c with
      | nil =>
        rw [hc] at hpos
        exact absurd hpos (by simp)
      | cons b bs =>
        simp only [List.cons_append]
        unfold utf8DecodeAux
        have hdec := utf8DecodeChar_encodeChar c (utf8Encode t)
        rw [hc] at hdec
        simp only [List.cons_append] at hdec
        rw [hdec]
        simp only
        rw [show (b :: bs).length - 1 = bs.length by simp]
        rw [List.drop_left]
        have hlen : (utf8Encode t).length ≤ f := by
          rw [hc, List.length_append] at hfuel
          simp only [List.length_cons] at hfuel
          omega
        exact congrArg (c :: ·) (ih f hlen)

theorem utf8Decode_encode (s : Str) : utf8Decode (utf8Encode s) = s :=
  utf8DecodeAux_encode s (utf8Encode s).length le_rfl

namespace ConfigPkg

theorem map_decode_encode (l : List (Str × Str)) :
    l.map (fun kv => (kv.1, utf8Decode (utf8Encode kv.2))) = l := by
  induction l with
  | nil => rfl
  | cons p t ih => simp [utf8Decode_encode, ih]

/-- Claim C9 (confirmed). Converting a secret-typed Config to a
Kubernetes Secret and back yields the original Config: every key survives
and every value round-trips through the byte encoding. -/
theorem secret_to_config_roundtrip (c : Config) (h : c.Ty = ConfigType.secret) :
    NewConfigFromSecret c.ToSecret = c := by
  obtain ⟨nm, ns, ty, data, labels⟩ := c
  dsimp only at h
  subst h
  unfold Config.ToSecret NewConfigFromSecret
  simp only [List.map_map, Config.mk.injEq, Function.comp, true_and, and_true]
  exact map_decode_encode data

theorem secret_to_config_roundtrip_witness :
    ({ Name := str "s", Namespace := str "n", Ty := .secret,
        Data := [(str "k", str "v"), (str "k2", str "v2")], Labels := [] } : Config).Ty
      = ConfigType.secret ∧
    NewConfigFromSecret (Config.ToSecret
      { Name := str "s", Namespace := str "n", Ty := .secret,
        Data := [(str "k", str "v"), (str "k2", str "v2")], Labels := [] })
      = { Name := str "s", Namespace := str "n", Ty := .secret,
          Data := [(str "k", str "v"), (str "k2", str "v2")], Labels := [] } :=
  ⟨rfl, secret_to_config_roundtrip
    { Name := str "s", Namespace := str "n", Ty := .secret,
      Data := [(str "k", str "v"), (str "k2", str "v2")], Labels := [] } (by rfl)⟩

end ConfigPkg
